import Mathlib

/-!
Verification development for the Logz.io Salesforce event-log collector.

The development shallowly embeds the two Go source files of the repository:

* salesforce_logs_receiver.go - receiver construction and validation,
  record collection, custom-field handling, event-log-file fetching
  (HTTP with retry), CSV flattening and per-row event assembly;
* the collector main (src/unnamed/part_003) - the per-cycle collection
  loop over configured sObject types, delivery to the shipper, and the
  per-type latest-timestamp (watermark) update.

External collaborators (the Salesforce client, the HTTP transport, the
Logz.io shipper, the ambient clock) are modelled as explicit inputs:
the HTTP transport as a function from attempt index to response, the
shipper as a delivery oracle from send index to success, the clock as a
string parameter.  Go maps are modelled as association lists with
replace-on-assign semantics; timestamps inside the collection loop are
modelled as natural numbers (the canonical UTC timestamp strings used
by the code are totally ordered, and the loop itself never inspects
them beyond assignment).
-/

namespace SalesforceLogs

/-- JSON-like dynamic value, modelling the Go `map[string]interface{}`
payloads produced by `json.Unmarshal` in the receiver. -/
inductive JValue where
  | s (v : String)
  | n (v : Int)
  | b (v : Bool)
  | null
  | obj (fields : List (String × JValue))
  | arr (items : List JValue)

/-- A decoded JSON object: the Go `map[string]interface{}` holding one
record's fields, as an association list with unique keys in insertion
order. -/
abbrev JObj := List (String × JValue)

/-- Go map assignment `m[k] = v`: replace the binding for `k` if
present, otherwise append it. -/
def setKey {α : Type} : List (String × α) → String → α → List (String × α)
  | [], k, v => [(k, v)]
  | kv :: rest, k, v => if kv.1 = k then (k, v) :: rest else kv :: setKey rest k v

/-- Go map read `m[k]`: first binding for `k`, if any. -/
def lookupKey {α : Type} : List (String × α) → String → Option α
  | [], _ => none
  | kv :: rest, k => if kv.1 = k then some kv.2 else lookupKey rest k

/-- `addCustomFields` (salesforce_logs_receiver.go:151-171), at the level
of the decoded JSON object.  When `customFields` is empty the input data
is returned unchanged.  Otherwise the source unmarshals the data and runs
`for fieldKey, fieldValue := range jsonMap { jsonMap[fieldKey] = fieldValue }`:
the loop ranges over the record's own map and assigns every entry back to
itself; the `customFields` map is never read.  The fold below is that
loop verbatim; the marshal/unmarshal round-trip is the identity at this
level of abstraction. -/
def addCustomFields (customFields : List (String × String)) (jsonMap : JObj) : JObj :=
  if customFields.length = 0 then jsonMap
  else jsonMap.foldl (fun m kv => setKey m kv.1 kv.2) jsonMap

/-! ## CSV flattening (getEventLogFileContent, lines 195-229)

The source collapses doubled newlines with
`strings.Replace(content, "\n\n", "\n", -1)`, parses the result with Go's
`encoding/csv` reader at default settings, and turns every non-header row
into a map keyed by the header columns.  The `encoding/csv` behaviour
modelled here (Go standard library, default `Reader`): fields are
comma-separated; a quoted field starts with `"`, uses `""` as an escaped
quote, and must be followed by a separator; a bare quote inside an
unquoted field and an unterminated quoted field are structural parse
errors; completely empty lines are skipped; `FieldsPerRecord = 0` pins
every record to the field count of the first record and any mismatch is
an `ErrFieldCount` parse error, which makes `ReadAll` fail as a whole.
The model returns `none` for every `csv.ParseError`; the source only
tests the error for being non-nil. -/

/-- `strings.Replace(s, "\n\n", "\n", -1)`: left-to-right, non-overlapping
replacement of doubled newlines by single ones. -/
def collapseNewlines : List Char → List Char
  | '\n' :: '\n' :: rest => '\n' :: collapseNewlines rest
  | c :: rest => c :: collapseNewlines rest
  | [] => []

/-- How a CSV field ended: at a comma, at a record boundary, or at the
end of the input. -/
inductive FieldEnd where
  | comma
  | newline
  | eof

/-- Scan the remainder of a quoted field (the opening quote is already
consumed).  `acc` is the reversed field content.  Returns the field, how
it ended, and the unconsumed input; `none` on an unterminated quote or a
character directly after the closing quote. -/
def scanQuoted : List Char → List Char → Option (List Char × FieldEnd × List Char)
  | _, [] => none
  | acc, '"' :: '"' :: rest => scanQuoted ('"' :: acc) rest
  | acc, '"' :: ',' :: rest => some (acc.reverse, FieldEnd.comma, rest)
  | acc, '"' :: '\n' :: rest => some (acc.reverse, FieldEnd.newline, rest)
  | acc, ['"'] => some (acc.reverse, FieldEnd.eof, [])
  | _, '"' :: _ :: _ => none
  | acc, c :: rest => scanQuoted (c :: acc) rest

/-- Scan an unquoted field.  A quote inside it is a structural error
(Go `ErrBareQuote`). -/
def scanUnquoted : List Char → List Char → Option (List Char × FieldEnd × List Char)
  | acc, [] => some (acc.reverse, FieldEnd.eof, [])
  | acc, ',' :: rest => some (acc.reverse, FieldEnd.comma, rest)
  | acc, '\n' :: rest => some (acc.reverse, FieldEnd.newline, rest)
  | _, '"' :: _ => none
  | acc, c :: rest => scanUnquoted (c :: acc) rest

/-- Parse one CSV field, quoted or unquoted. -/
def parseCsvField : List Char → Option (List Char × FieldEnd × List Char)
  | '"' :: rest => scanQuoted [] rest
  | cs => scanUnquoted [] cs

/-- Parse the fields of one record; the fuel bounds the field count and
is instantiated with the input length, which no record can exceed. -/
def parseRecordFrom : Nat → List Char → Option (List String × List Char)
  | 0, _ => none
  | fuel + 1, cs =>
    match parseCsvField cs with
    | none => none
    | some (f, FieldEnd.comma, rest) =>
      match parseRecordFrom fuel rest with
      | none => none
      | some (fs, rest') => some (String.mk f :: fs, rest')
    | some (f, _, rest) => some ([String.mk f], rest)

/-- Parse all records of the input; empty lines are skipped, as in Go's
`encoding/csv`.  The fuel bounds the record count and is instantiated
with the input length. -/
def parseRecordsFrom : Nat → List Char → Option (List (List String))
  | 0, _ => none
  | _ + 1, [] => some []
  | fuel + 1, '\n' :: rest => parseRecordsFrom fuel rest
  | fuel + 1, cs =>
    match parseRecordFrom (cs.length + 1) cs with
    | none => none
    | some (r, rest) =>
      match parseRecordsFrom fuel rest with
      | none => none
      | some rs => some (r :: rs)

/-- Go `csv.Reader` field-count enforcement with the default
`FieldsPerRecord = 0`: the first record fixes the expected count and any
later record with a different count is an `ErrFieldCount` parse error,
failing `ReadAll` as a whole. -/
def checkFieldCounts : List (List String) → Option (List (List String))
  | [] => some []
  | r0 :: rs => if rs.all (fun r => r.length = r0.length) then some (r0 :: rs) else none

/-- `csvReader.ReadAll()` on the given characters (default reader
settings). -/
def csvReadAll (cs : List Char) : Option (List (List String)) :=
  match parseRecordsFrom (cs.length + 1) cs with
  | none => none
  | some rs => checkFieldCounts rs

/-- The per-row loop of `getEventLogFileContent` (lines 213-226): row 0
is the header, every later row becomes a map keyed by the header column
at the same index.  `ReadAll` guarantees header and row have the same
field count, so pairing them positionally is exact. -/
def buildLogEvent (header row : List String) : List (String × String) :=
  (header.zip row).foldl (fun m kv => setKey m kv.1 kv.2) []

/-- Rows-to-events conversion of `getEventLogFileContent`: skip the
header, build one map per data row. -/
def rowsToLogEvents (csvData : List (List String)) : List (List (String × String)) :=
  match csvData with
  | [] => []
  | header :: dataRows => dataRows.map (fun row => buildLogEvent header row)

/-- `getEventLogFileContent` (lines 195-229) from the fetched file
content onward: collapse doubled newlines, parse as CSV, flatten to one
map per data row.  `none` models every error return (the source wraps
the CSV error message and returns it).  The HTTP fetch preceding this in
the source is modelled separately by `getFileContent`. -/
def getEventLogFileContent (content : String) : Option (List (List (String × String))) :=
  Option.map rowsToLogEvents (csvReadAll (collapseNewlines content.toList))

/-- `addEventLogToJsonData` (lines 282-296): set the flattened row into
the record's JSON object under the fixed key `LogFileContent` (Go map
assignment, so an existing binding of that key is replaced). -/
def addEventLogToJsonData (eventLog : List (String × String)) (jsonData : JObj) : JObj :=
  setKey jsonData "LogFileContent"
    (JValue.obj (eventLog.map (fun kv => (kv.1, JValue.s kv.2))))

/-- `EnrichEventLogFileSObjectData` (lines 173-193) from the fetched file
content onward: flatten the log file and build one event per row, each
the base record's JSON object with the row under `LogFileContent`.  An
error from flattening aborts the whole record. -/
def EnrichEventLogFileSObjectData (content : String) (jsonData : JObj) :
    Option (List JObj) :=
  match getEventLogFileContent content with
  | none => none
  | some rows => some (rows.map (fun row => addEventLogToJsonData row jsonData))

/-! ## Log file fetching with retry (getFileContent, lines 231-280)

The source issues an authenticated GET through `retry.Do` with
`Attempts(3)` and `RetryIf` matching the regular expression
`statuscode: 5[0-9]{2}` against the error MESSAGE.  A response outside
2xx becomes the error `ERROR: statuscode: <code>, body: <body>`; a
transport failure keeps its own message.  The HTTP transport is an
external collaborator, modelled as a function from attempt index to the
observed outcome.  `retry-go` aggregates the per-attempt errors; the
model returns the final attempt's error, which is faithful in error
presence, error message content of that attempt, and attempt count. -/

/-- Outcome of one `httpClient.Do` call: a response with status and
body, or a transport-level failure with its error message. -/
inductive HttpOutcome where
  | resp (status : Nat) (body : String)
  | transportFailure (msg : String)

/-- Error produced by one attempt of the fetch closure. -/
inductive FetchErr where
  | httpStatus (status : Nat) (body : String)
  | transport (msg : String)

/-- `err.Error()`: the message the `RetryIf` regular expression is
matched against.  Non-2xx responses format as in the source
(`fmt.Errorf("ERROR: statuscode: %d, body: %s", ...)`). -/
def errMessage : FetchErr → String
  | FetchErr.httpStatus st body =>
      "ERROR: statuscode: " ++ toString st ++ ", body: " ++ body
  | FetchErr.transport msg => msg

/-- One iteration of the retried closure: a transport failure is an
error; a response with status outside 200-299 is an error carrying the
body; otherwise the body is the content. -/
def attemptOnce : HttpOutcome → Except FetchErr String
  | HttpOutcome.transportFailure msg => Except.error (FetchErr.transport msg)
  | HttpOutcome.resp st body =>
      if st < 200 ∨ st > 299 then Except.error (FetchErr.httpStatus st body)
      else Except.ok body

/-- Whether the pattern `statuscode: 5` followed by two digits starts at
the head of the character list. -/
def matchesFiveXXHere : List Char → Bool
  | 's' :: 't' :: 'a' :: 't' :: 'u' :: 's' :: 'c' :: 'o' :: 'd' :: 'e' :: ':' :: ' '
      :: '5' :: d1 :: d2 :: _ => d1.isDigit && d2.isDigit
  | _ => false

/-- `regexp.MatchString("statuscode: 5[0-9]{2}", s)`: the pattern occurs
somewhere in `s`. -/
def containsFiveXXPattern : List Char → Bool
  | [] => false
  | c :: rest => matchesFiveXXHere (c :: rest) || containsFiveXXPattern rest

/-- The `RetryIf` predicate of the source: retry exactly when the error
message matches `statuscode: 5[0-9]{2}`. -/
def retryIf (e : FetchErr) : Bool :=
  containsFiveXXPattern (errMessage e).toList

/-- `retry.Do` with `Attempts(3)`: run the closure; on success stop; on
an error, stop if this was the last allowed attempt or `RetryIf`
rejects the error, otherwise back off and try again.  Returns the
result together with the number of attempts used. -/
def retryLoop (responses : Nat → HttpOutcome) : Nat → Nat → Except FetchErr String × Nat
  | 0, i => (Except.error (FetchErr.transport "retry budget misconfigured"), i)
  | attemptsLeft + 1, i =>
    match attemptOnce (responses i) with
    | Except.ok body => (Except.ok body, i + 1)
    | Except.error e =>
      if attemptsLeft = 0 then (Except.error e, i + 1)
      else if retryIf e then retryLoop responses attemptsLeft (i + 1)
      else (Except.error e, i + 1)

/-- `getFileContent` (lines 231-280) given the transport's behaviour:
the retried fetch with a budget of 3 attempts total.  On success the
content is the successful response's body; on failure no content is
produced. -/
def getFileContent (responses : Nat → HttpOutcome) : Except FetchErr String × Nat :=
  retryLoop responses 3 0

/-! ## The collection loop (src/unnamed/part_003, collect, lines 148-205)

Per cycle, `collect` walks the configured sObject types; for each it
starts a goroutine and immediately waits for it, so the types are
processed sequentially.  Per type: query the records
(`GetSObjectRecords`); on error skip the type.  Per record, in the order
the query returned them: collect the record's JSON
(`CollectSObjectRecord`, which includes `addCustomFields`); for the
`eventlogfile` type additionally fetch/flatten/assemble the per-row
events (`EnrichEventLogFileSObjectData`); send each resulting payload to
the shipper; any failure returns from the goroutine, aborting the
remaining records of that type for this cycle.  Only after every send
for a record succeeded does `sObject.LatestTimestamp = *createdDate`
run - an unconditional overwrite with the current record's creation
timestamp.

Events are an abstract type `Ev`; creation timestamps are naturals (the
canonical UTC timestamp strings are totally ordered and the loop only
ever assigns them).  The shipper is a delivery oracle from the global
send index of the cycle to success; external stage outcomes (collection
and enrichment) are fields of the record input. -/

/-- One fetched record as the loop sees it: its creation timestamp and
the outcomes of the two per-record stages (`CollectSObjectRecord`, and
`EnrichEventLogFileSObjectData` for the log-bearing type). -/
structure RecInput (Ev : Type) where
  createdDate : Nat
  collectResult : Except Unit Ev
  enrichResult : Except Unit (List Ev)

/-- One configured sObject type at the start of the cycle: whether it is
the log-bearing `eventlogfile` type, its current latest-timestamp
watermark, and the query outcome of `GetSObjectRecords`. -/
structure TypeInput (Ev : Type) where
  isLog : Bool
  watermark : Nat
  fetch : Except Unit (List (RecInput Ev))

/-- Result of processing one type for one cycle: the watermark after the
cycle, the payloads handed to `shipper.Send` in order, the number of
records whose per-record processing was started, and the global send
counter afterwards. -/
structure TypeResult (Ev : Type) where
  watermark : Nat
  sent : List Ev
  started : Nat
  counter : Nat

/-- The payloads a record contributes: the collected JSON alone for a
plain type, the enriched per-row events for the `eventlogfile` type
(lines 170-186). -/
def processRecord {Ev : Type} (isLog : Bool) (r : RecInput Ev) : Except Unit (List Ev) :=
  match r.collectResult with
  | Except.error e => Except.error e
  | Except.ok d => if isLog then r.enrichResult else Except.ok [d]

/-- Send a record's payloads in order (`sendDataToLogzio`, lines
198-205): stop at the first failed send.  Returns the payloads whose
send was attempted, whether all succeeded, and the advanced send
counter. -/
def sendSeq {Ev : Type} (deliver : Nat → Bool) : Nat → List Ev → List Ev × Bool × Nat
  | c, [] => ([], true, c)
  | c, e :: es =>
    if deliver c then
      let r := sendSeq deliver (c + 1) es
      (e :: r.1, r.2.1, r.2.2)
    else ([e], false, c + 1)

/-- The per-type record loop (lines 163-189).  A failed stage or a
failed send returns immediately, leaving the watermark at its current
value; after a record's sends all succeed the watermark is overwritten
with that record's creation timestamp. -/
def processRecords {Ev : Type} (isLog : Bool) (deliver : Nat → Bool) :
    Nat → Nat → List (RecInput Ev) → TypeResult Ev
  | c, wm, [] => ⟨wm, [], 0, c⟩
  | c, wm, r :: rs =>
    match processRecord isLog r with
    | Except.error _ => ⟨wm, [], 1, c⟩
    | Except.ok evs =>
      let s := sendSeq deliver c evs
      if s.2.1 then
        let rest := processRecords isLog deliver s.2.2 r.createdDate rs
        ⟨rest.watermark, s.1 ++ rest.sent, rest.started + 1, rest.counter⟩
      else ⟨wm, s.1, 1, s.2.2⟩

/-- One type's cycle (lines 151-193): a query error skips the type with
nothing sent and the watermark unchanged; otherwise the record loop
runs. -/
def processType {Ev : Type} (deliver : Nat → Bool) (c : Nat) (t : TypeInput Ev) :
    TypeResult Ev :=
  match t.fetch with
  | Except.error _ => ⟨t.watermark, [], 0, c⟩
  | Except.ok rs => processRecords t.isLog deliver c t.watermark rs

/-- `collect` over the configured types.  The source starts a goroutine
per type but waits for it before starting the next, so the cycle is
sequential; the shipper's send counter threads through in that order. -/
def collect {Ev : Type} (deliver : Nat → Bool) : Nat → List (TypeInput Ev) → List (TypeResult Ev)
  | _, [] => []
  | c, t :: ts =>
    let r := processType deliver c t
    r :: collect deliver r.counter ts

/-- The `WHERE CreatedDate > <watermark>` bound of `GetSObjectRecords`
(salesforce_logs_receiver.go:119-128): whether a record with the given
creation timestamp still qualifies against a watermark. -/
def queryFetchesRecord (watermark createdDate : Nat) : Bool :=
  decide (watermark < createdDate)

/-! ## Receiver construction (NewSalesforceLogsReceiver, lines 43-108)

The constructor validates credentials and the sObject list, defaults an
empty per-type starting timestamp to `time.Now().Add(-time.Hour)`
formatted in the canonical layout, and rejects a non-empty timestamp
that `time.Parse("2006-01-02T15:04:05.000Z", ...)` cannot parse.  The
ambient clock is external: the already-formatted `now minus one hour`
string is a parameter.  URL and API-version defaulting and the
`simpleforce.NewClient` call configure the external client and cannot
fail for the inputs modelled here, so they are omitted.  Go's
`time.Parse` with this layout demands the exact shape
`YYYY-MM-DDTHH:MM:SS.mmmZ` (the lone `Z` is a literal) and validates the
calendar ranges, including month lengths and leap years. -/

/-- A parsed canonical timestamp. -/
structure GoTimestamp where
  year : Nat
  month : Nat
  day : Nat
  hour : Nat
  minute : Nat
  second : Nat
  millis : Nat

/-- Decimal digit value of a character, if it is a digit. -/
def digitVal (c : Char) : Option Nat :=
  if c.isDigit then some (c.toNat - 48) else none

/-- Two-digit zero-padded number, as the layout fields `01`, `02`, `15`,
`04`, `05` require. -/
def twoDigits (a b : Char) : Option Nat := do
  let x ← digitVal a
  let y ← digitVal b
  pure (10 * x + y)

/-- Gregorian leap year, as validated by Go's date parsing. -/
def isLeapYear (y : Nat) : Bool :=
  y % 4 = 0 && (y % 100 ≠ 0 || y % 400 = 0)

/-- Length of a month, as validated by Go's date parsing. -/
def daysInMonth (y m : Nat) : Nat :=
  if m = 2 then (if isLeapYear y then 29 else 28)
  else if m = 4 || m = 6 || m = 9 || m = 11 then 30
  else 31

/-- `time.Parse("2006-01-02T15:04:05.000Z", s)`: `some` exactly when the
string has the canonical shape and denotes a valid calendar datetime. -/
def parseCanonicalTimestamp (str : String) : Option GoTimestamp :=
  match str.toList with
  | [y1, y2, y3, y4, '-', m1, m2, '-', d1, d2, 'T',
     h1, h2, ':', mi1, mi2, ':', se1, se2, '.', f1, f2, f3, 'Z'] => do
      let yh ← twoDigits y1 y2
      let yl ← twoDigits y3 y4
      let mo ← twoDigits m1 m2
      let da ← twoDigits d1 d2
      let ho ← twoDigits h1 h2
      let mi ← twoDigits mi1 mi2
      let se ← twoDigits se1 se2
      let fh ← digitVal f1
      let fm ← twoDigits f2 f3
      let y := 100 * yh + yl
      if 1 ≤ mo ∧ mo ≤ 12 ∧ 1 ≤ da ∧ da ≤ daysInMonth y mo
          ∧ ho ≤ 23 ∧ mi ≤ 59 ∧ se ≤ 59 then
        pure ⟨y, mo, da, ho, mi, se, 100 * fh + fm⟩
      else none
  | _ => none

/-- One configured sObject type (salesforce_logs_receiver.go:38-41). -/
structure SObjectToCollect where
  SObjectType : String
  LatestTimestamp : String

/-- The receiver state relevant to the claims
(salesforce_logs_receiver.go:29-36; the external client is omitted). -/
structure SalesforceLogsReceiver where
  SObjects : List SObjectToCollect
  username : String
  password : String
  securityToken : String
  customFields : List (String × String)

/-- The per-sObject validation loop of the constructor (lines 74-85):
an empty type name is an error; an empty starting timestamp is replaced
by the formatted `now minus one hour`; a non-empty one that does not
parse in the canonical layout is an error. -/
def validateSObjects (currentTimeMinusOneHour : String) :
    List SObjectToCollect → Except String (List SObjectToCollect)
  | [] => Except.ok []
  | so :: rest =>
    if so.SObjectType = "" then Except.error "sObject type must have a value"
    else if so.LatestTimestamp = "" then
      match validateSObjects currentTimeMinusOneHour rest with
      | Except.error e => Except.error e
      | Except.ok rest' => Except.ok (⟨so.SObjectType, currentTimeMinusOneHour⟩ :: rest')
    else if (parseCanonicalTimestamp so.LatestTimestamp).isSome then
      match validateSObjects currentTimeMinusOneHour rest with
      | Except.error e => Except.error e
      | Except.ok rest' => Except.ok (so :: rest')
    else Except.error "sObject latest timestamp must be in 2006-01-02T15:04:05.000Z format"

/-- `NewSalesforceLogsReceiver` (lines 43-108): the credential and
sObject-list checks in source order, then the per-sObject validation.
`currentTimeMinusOneHour` stands for
`time.Now().Add(-time.Hour * 1).Format("2006-01-02T15:04:05.000Z")`. -/
def NewSalesforceLogsReceiver (clientID username password securityToken : String)
    (sObjects : List SObjectToCollect) (customFields : List (String × String))
    (currentTimeMinusOneHour : String) : Except String SalesforceLogsReceiver :=
  if clientID = "" then Except.error "client ID must have a value"
  else if username = "" then Except.error "username must have a value"
  else if password = "" then Except.error "password must have a value"
  else if securityToken = "" then Except.error "security token must have a value"
  else if sObjects.length = 0 then Except.error "sObjects must have a value"
  else
    match validateSObjects currentTimeMinusOneHour sObjects with
    | Except.error e => Except.error e
    | Except.ok sos => Except.ok ⟨sos, username, password, securityToken, customFields⟩

/-! ## Helper lemmas -/

theorem lookupKey_setKey_self {α : Type} (m : List (String × α)) (k : String) (v : α) :
    lookupKey (setKey m k v) k = some v := by
  induction m with
  | nil => simp [setKey, lookupKey]
  | cons kv rest ih =>
      by_cases h : kv.1 = k
      · simp [setKey, lookupKey, h]
      · simp [setKey, lookupKey, h, ih]

theorem lookupKey_setKey_ne {α : Type} (m : List (String × α)) (k : String) (v : α)
    (k' : String) (hk : k' ≠ k) :
    lookupKey (setKey m k v) k' = lookupKey m k' := by
  have hk' : k ≠ k' := fun h => hk h.symm
  induction m with
  | nil => simp [setKey, lookupKey, hk']
  | cons kv rest ih =>
      by_cases h : kv.1 = k
      · simp [setKey, lookupKey, h, hk']
      · simp [setKey, lookupKey, h, ih]

theorem sendSeq_all_true {Ev : Type} (deliver : Nat → Bool) (evs : List Ev) (c : Nat)
    (h : ∀ i, i < evs.length → deliver (c + i) = true) :
    sendSeq deliver c evs = (evs, true, c + evs.length) := by
  induction evs generalizing c with
  | nil => simp [sendSeq]
  | cons e es ih =>
      have h0 : deliver c = true := by simpa using h 0 (Nat.succ_pos _)
      have h' : ∀ i, i < es.length → deliver (c + 1 + i) = true := by
        intro i hi
        have := h (i + 1) (Nat.succ_lt_succ hi)
        simpa [Nat.add_assoc, Nat.add_comm 1 i] using this
      simp [sendSeq, h0, ih (c + 1) h']
      omega

theorem sendSeq_first_fail {Ev : Type} (deliver : Nat → Bool) (evs : List Ev) (c k : Nat)
    (hk : k < evs.length)
    (hpre : ∀ i, i < k → deliver (c + i) = true)
    (hfail : deliver (c + k) = false) :
    sendSeq deliver c evs = (evs.take (k + 1), false, c + k + 1) := by
  induction evs generalizing c k with
  | nil => simp at hk
  | cons e es ih =>
      cases k with
      | zero =>
          have h0 : deliver c = false := by simpa using hfail
          simp [sendSeq, h0]
      | succ k' =>
          have h0 : deliver c = true := by simpa using hpre 0 (Nat.succ_pos _)
          have hk' : k' < es.length := Nat.lt_of_succ_lt_succ hk
          have hpre' : ∀ i, i < k' → deliver (c + 1 + i) = true := by
            intro i hi
            have := hpre (i + 1) (Nat.succ_lt_succ hi)
            simpa [Nat.add_assoc, Nat.add_comm 1 i] using this
          have hfail' : deliver (c + 1 + k') = false := by
            have : c + 1 + k' = c + (k' + 1) := by omega
            rw [this]; exact hfail
          simp [sendSeq, h0, ih (c + 1) k' hk' hpre' hfail']
          omega

/-! ## Claim C2 -/

/-- Claim C2, evaluated at a failing input: with the enrichment
configuration `env: prod` and the record object `Id: 1`, the assembled
object is unchanged - it does not contain the configured enrichment
field at all, because `addCustomFields` ranges over the record's own map
instead of the `customFields` map.  The claim that every configured
enrichment field appears in the event (overriding on collision) is false
on the code. -/
theorem addCustomFields_drops_enrichment :
    addCustomFields [("env", "prod")] [("Id", JValue.s "1")] = [("Id", JValue.s "1")]
    ∧ lookupKey (addCustomFields [("env", "prod")] [("Id", JValue.s "1")]) "env" = none :=
  ⟨rfl, rfl⟩

/-! ## Claim C7 -/

/-- Claim C7: doubled newline separators are collapsed to single ones
before row parsing - `getEventLogFileContent` parses exactly the
collapsed content - and the input `"a,b\n1,2\n\n3,4\n"` flattens to
exactly the two data rows `a:1,b:2` and `a:3,b:4`, not three. -/
theorem doubled_newlines_collapsed :
    (∀ content : String, getEventLogFileContent content
        = Option.map rowsToLogEvents (csvReadAll (collapseNewlines content.toList)))
    ∧ getEventLogFileContent "a,b\n1,2\n\n3,4\n"
        = some [[("a", "1"), ("b", "2")], [("a", "3"), ("b", "4")]] :=
  ⟨fun _ => rfl, rfl⟩

/-! ## Claim C6 -/

/-- Claim C6, refuted at a concrete input: the content
`"a,b\n1,2\n3\n"` has a data row with fewer columns than the header, and
the whole flatten call fails (the CSV reader's field-count check), where
the claim promises a partial map `a: 3` and no fatal error. -/
theorem short_row_counterexample :
    getEventLogFileContent "a,b\n1,2\n3\n" = none :=
  rfl

/-- Claim C6 (amended): a data row whose column count differs from the
header's makes the whole flatten call fail - Go's `encoding/csv` at
default settings pins every record to the first record's field count and
`ReadAll` surfaces the mismatch as a parse error - so no partial map is
ever produced; short rows are not a tolerated per-row condition. -/
theorem fieldCount_mismatch_fails_flatten (content : String)
    (r0 r : List String) (rs : List (List String))
    (hp : parseRecordsFrom ((collapseNewlines content.toList).length + 1)
        (collapseNewlines content.toList) = some (r0 :: rs))
    (hr : r ∈ rs) (hne : r.length ≠ r0.length) :
    getEventLogFileContent content = none := by
  have hall : rs.all (fun x => x.length = r0.length) = false := by
    cases hb : rs.all (fun x => x.length = r0.length) with
    | false => rfl
    | true =>
        have := List.all_eq_true.mp hb r hr
        simp at this
        exact absurd this hne
  have hp' : parseRecordsFrom ((collapseNewlines content.data).length + 1)
      (collapseNewlines content.data) = some (r0 :: rs) := hp
  simp [getEventLogFileContent, csvReadAll, hp', checkFieldCounts, hall]

/-- Witness for the amended claim C6 at a concrete input: a data row
with a column count different from the header's (two columns under a
three-column header) fails the whole flatten call. -/
theorem fieldCount_mismatch_fails_flatten_witness :
    getEventLogFileContent "x,y,z\n1,2\n" = none :=
  fieldCount_mismatch_fails_flatten "x,y,z\n1,2\n"
    ["x", "y", "z"] ["1", "2"] [["1", "2"]] rfl (by simp) (by decide)

/-! ## Claim C1 -/

/-- Claim C1, refuted at a concrete input: two records with creation
timestamps 5 and 3 (in fetched order), previous watermark 0, every event
delivered.  The final watermark is 3, the last processed record's
timestamp, not `max 0 (max 5 3) = 5` as the claim requires; in
particular the overwrite with the earlier timestamp 3 after the
watermark had reached 5 was not a no-op. -/
theorem watermark_not_max_counterexample :
    (processRecords false (fun _ => true) 0 0
      [(⟨5, Except.ok 1, Except.ok []⟩ : RecInput Nat),
       ⟨3, Except.ok 2, Except.ok []⟩]).watermark = 3
    ∧ (processRecords false (fun _ => true) 0 0
      [(⟨5, Except.ok 1, Except.ok []⟩ : RecInput Nat),
       ⟨3, Except.ok 2, Except.ok []⟩]).watermark ≠ max 0 (max 5 3) :=
  ⟨rfl, by decide⟩

/-- Claim C1 (amended): after a poll cycle in which every fetched record
of a type was processed and all of its events delivered, the watermark
equals the creation timestamp of the LAST record in the order the
fetcher returned them (the previous value when no records came back).
The per-record update `sObject.LatestTimestamp = *createdDate` is an
unconditional overwrite with no monotonicity check, so the result
depends on the fetched order and can move backward. -/
theorem watermark_is_last_processed {Ev : Type} (isLog : Bool) (deliver : Nat → Bool)
    (c wm : Nat) (rs : List (RecInput Ev))
    (hok : ∀ r ∈ rs, ∃ evs, processRecord isLog r = Except.ok evs)
    (hdel : ∀ n, deliver n = true) :
    (processRecords isLog deliver c wm rs).watermark
      = (rs.map RecInput.createdDate).getLastD wm := by
  induction rs generalizing c wm with
  | nil => simp [processRecords]
  | cons r rs ih =>
      obtain ⟨evs, hevs⟩ := hok r (List.mem_cons_self _ _)
      have hall : sendSeq deliver c evs = (evs, true, c + evs.length) :=
        sendSeq_all_true deliver evs c (fun i _ => hdel _)
      have hok' : ∀ r' ∈ rs, ∃ evs, processRecord isLog r' = Except.ok evs :=
        fun r' hr' => hok r' (List.mem_cons_of_mem _ hr')
      rw [List.map_cons, List.getLastD_cons, ← ih (c + evs.length) r.createdDate hok']
      simp [processRecords, hevs, hall]

/-- Witness for the amended claim C1 at the concrete input of the
counterexample: with records timestamped 5 then 3 and every delivery
succeeding, the final watermark is the last record's timestamp. -/
theorem watermark_is_last_processed_witness :
    (processRecords false (fun _ => true) 0 0
      [(⟨5, Except.ok 1, Except.ok []⟩ : RecInput Nat),
       ⟨3, Except.ok 2, Except.ok []⟩]).watermark
      = ([(⟨5, Except.ok 1, Except.ok []⟩ : RecInput Nat),
          ⟨3, Except.ok 2, Except.ok []⟩].map RecInput.createdDate).getLastD 0 :=
  watermark_is_last_processed false (fun _ => true) 0 0 _
    (by
      intro r hr
      simp only [List.mem_cons, List.mem_singleton] at hr
      rcases hr with rfl | rfl | h
      · exact ⟨[1], rfl⟩
      · exact ⟨[2], rfl⟩
      · exact absurd h (List.not_mem_nil r))
    (fun _ => rfl)

/-! ## Claim C3 -/

/-- Claim C3: five fetched records of one type; the first two records'
events all deliver, then the delivery of record 3's event at offset `j`
fails.  The cycle sends exactly the first two records' events plus the
failed prefix of record 3's, never touches records 4 and 5 (only 3
records' processing is started), and leaves the watermark exactly at
record 2's creation timestamp. -/
theorem delivery_failure_aborts_type {Ev : Type} (isLog : Bool) (deliver : Nat → Bool)
    (wm : Nat) (r1 r2 r3 r4 r5 : RecInput Ev) (e1 e2 e3 : List Ev) (j : Nat)
    (h1 : processRecord isLog r1 = Except.ok e1)
    (h2 : processRecord isLog r2 = Except.ok e2)
    (h3 : processRecord isLog r3 = Except.ok e3)
    (hj : j < e3.length)
    (hdel : ∀ i, i < e1.length + e2.length + j → deliver i = true)
    (hfail : deliver (e1.length + e2.length + j) = false) :
    processRecords isLog deliver 0 wm [r1, r2, r3, r4, r5]
      = ⟨r2.createdDate, e1 ++ (e2 ++ e3.take (j + 1)), 3,
          e1.length + e2.length + j + 1⟩ := by
  have hs1 : sendSeq deliver 0 e1 = (e1, true, e1.length) := by
    simpa using sendSeq_all_true deliver e1 0 (fun i hi => hdel _ (by omega))
  have hs2 : sendSeq deliver e1.length e2 = (e2, true, e1.length + e2.length) :=
    sendSeq_all_true deliver e2 e1.length (fun i hi => hdel _ (by omega))
  have hs3 : sendSeq deliver (e1.length + e2.length) e3
      = (e3.take (j + 1), false, e1.length + e2.length + j + 1) :=
    sendSeq_first_fail deliver e3 (e1.length + e2.length) j hj
      (fun i hi => hdel _ (by omega)) hfail
  simp [processRecords, h1, h2, h3, hs1, hs2, hs3]

/-- Witness for claim C3 at a concrete input: five plain records with
one event each, deliveries 1 and 2 succeed and delivery 3 fails; only
events 10, 20, 30 are attempted, three records are started, and the
watermark is record 2's timestamp. -/
theorem delivery_failure_aborts_type_witness :
    processRecords false (fun n => decide (n < 2)) 0 0
      [(⟨1, Except.ok 10, Except.ok []⟩ : RecInput Nat),
       ⟨2, Except.ok 20, Except.ok []⟩,
       ⟨3, Except.ok 30, Except.ok []⟩,
       ⟨4, Except.ok 40, Except.ok []⟩,
       ⟨5, Except.ok 50, Except.ok []⟩]
      = ⟨2, [10, 20, 30], 3, 3⟩ :=
  delivery_failure_aborts_type false (fun n => decide (n < 2)) 0
    ⟨1, Except.ok 10, Except.ok []⟩ ⟨2, Except.ok 20, Except.ok []⟩
    ⟨3, Except.ok 30, Except.ok []⟩ ⟨4, Except.ok 40, Except.ok []⟩
    ⟨5, Except.ok 50, Except.ok []⟩ [10] [20] [30] 0
    rfl rfl rfl (by decide) (fun i hi => decide_eq_true (by simpa using hi)) rfl

/-! ## Claim C8 -/

/-- Claim C8: a type whose query fails, or returns zero qualifying
records, is skipped for the cycle: no record processing is started (so
no log-file content fetch can happen), nothing is sent, the watermark is
unchanged, and the remaining types of the cycle are processed exactly as
they otherwise would be. -/
theorem empty_or_failed_query_skips_type {Ev : Type} (deliver : Nat → Bool) (c : Nat)
    (t : TypeInput Ev) (ts : List (TypeInput Ev))
    (h : t.fetch = Except.error () ∨ t.fetch = Except.ok []) :
    collect deliver c (t :: ts)
      = ⟨t.watermark, [], 0, c⟩ :: collect deliver c ts := by
  rcases h with h | h <;> simp [collect, processType, h, processRecords]

/-- Witness for claim C8 at a concrete input: a single type whose query
failed yields an unchanged watermark, no sends and no started
records. -/
theorem empty_or_failed_query_skips_type_witness :
    collect (fun _ => true) 0 [(⟨false, 7, Except.error ()⟩ : TypeInput Nat)]
      = [⟨7, [], 0, 0⟩] :=
  empty_or_failed_query_skips_type (fun _ => true) 0
    ⟨false, 7, Except.error ()⟩ [] (Or.inl rfl)

/-! ## Claim C10 -/

/-- Claim C10, refuted at a concrete input: a log-bearing record with a
header-only file (creation timestamp 5) is followed in the same batch by
a fully delivered record with the earlier creation timestamp 3.  The
header-only record is treated as processed and the watermark reaches 5,
but the later record's unconditional overwrite regresses the watermark
to 3, after which the `CreatedDate > watermark` bound fetches the
header-only record again - so "never re-fetched in later cycles" is
false on the code. -/
theorem header_only_refetched_counterexample :
    EnrichEventLogFileSObjectData "a,b\n" [("Id", JValue.s "5")] = some []
    ∧ (processRecords true (fun _ => true) 0 0
        [(⟨5, Except.ok [("Id", JValue.s "5")], Except.ok []⟩ : RecInput JObj),
         ⟨3, Except.ok [("Id", JValue.s "3")],
            Except.ok [[("Id", JValue.s "3")]]⟩]).watermark = 3
    ∧ queryFetchesRecord 3 5 = true :=
  ⟨rfl, rfl, rfl⟩

/-- Claim C10 (amended): a log-bearing record whose fetched log file has
only a header row (zero data rows) is treated as fully processed in any
batch position: enrichment returns zero events without error, nothing is
sent for it, it counts as a started record, and the record loop
continues over the remaining records of the batch with the watermark
overwritten to that record's creation timestamp.  The record is excluded
from later cycles' queries exactly when the cycle-final watermark is at
least its creation timestamp - which holds when it is the last fully
delivered record, but fails when a later record of the same batch
regresses the watermark below its timestamp via the unconditional
overwrite. -/
theorem header_only_record_zero_events (content : String) (base : JObj)
    (cd c wm : Nat) (deliver : Nat → Bool) (rs : List (RecInput JObj))
    (h : getEventLogFileContent content = some []) :
    EnrichEventLogFileSObjectData content base = some []
    ∧ processRecords true deliver c wm
        ((⟨cd, Except.ok base, Except.ok []⟩ : RecInput JObj) :: rs)
        = ⟨(processRecords true deliver c cd rs).watermark,
           (processRecords true deliver c cd rs).sent,
           (processRecords true deliver c cd rs).started + 1,
           (processRecords true deliver c cd rs).counter⟩
    ∧ (∀ wmEnd : Nat, queryFetchesRecord wmEnd cd = false ↔ cd ≤ wmEnd) := by
  refine ⟨?_, ?_, ?_⟩
  · simp [EnrichEventLogFileSObjectData, h]
  · simp [processRecords, processRecord, sendSeq]
  · intro wmEnd
    simp [queryFetchesRecord]

/-- Witness for the amended claim C10 at a concrete input: the
header-only content `"a,b\n"` and an empty remainder of the batch, so
the cycle ends with the watermark at the record's own timestamp and the
record no longer qualifies. -/
theorem header_only_record_zero_events_witness :
    EnrichEventLogFileSObjectData "a,b\n" [("Id", JValue.s "1")] = some []
    ∧ processRecords true (fun _ => true) 0 0
        [(⟨42, Except.ok [("Id", JValue.s "1")], Except.ok []⟩ : RecInput JObj)]
        = ⟨42, [], 1, 0⟩
    ∧ (∀ wmEnd : Nat, queryFetchesRecord wmEnd 42 = false ↔ 42 ≤ wmEnd) :=
  header_only_record_zero_events "a,b\n" [("Id", JValue.s "1")]
    42 0 0 (fun _ => true) [] rfl

/-! ## Claim C4 -/

/-- Claim C4, refuted at a concrete input: an HTTP 404 whose response
body happens to contain the text `statuscode: 500` is retried - the
`RetryIf` regular expression `statuscode: 5[0-9]{2}` is matched against
the whole error MESSAGE, which embeds the body - so this non-5xx failure
uses all 3 attempts instead of failing immediately on the first. -/
theorem non5xx_retried_counterexample :
    getFileContent (fun _ => HttpOutcome.resp 404 "statuscode: 500")
      = (Except.error (FetchErr.httpStatus 404 "statuscode: 500"), 3)
    ∧ (3 : Nat) ≠ 1 :=
  ⟨rfl, by decide⟩

/-- Claim C4 (amended): a 503-503-200 response sequence succeeds with
exactly 3 attempts; three 503s exhaust the budget after exactly 3
attempts with no content; a first-attempt failure is retried or not
according to whether its error MESSAGE matches `statuscode: 5[0-9]{2}` -
so a plain 404 or a typical transport error fails immediately after 1
attempt with no content, while a non-5xx response whose body contains
such text is misclassified as transient and retried. -/
theorem getFileContent_retry_classification :
    (∀ body : String,
      getFileContent (fun i => if i < 2 then HttpOutcome.resp 503 "Server Error"
          else HttpOutcome.resp 200 body)
        = (Except.ok body, 3))
    ∧ getFileContent (fun _ => HttpOutcome.resp 503 "Server Error")
        = (Except.error (FetchErr.httpStatus 503 "Server Error"), 3)
    ∧ (∀ (responses : Nat → HttpOutcome) (e : FetchErr),
        attemptOnce (responses 0) = Except.error e → retryIf e = false →
        getFileContent responses = (Except.error e, 1)) := by
  refine ⟨fun body => rfl, rfl, fun responses e he hr => ?_⟩
  show retryLoop responses (2 + 1) 0 = (Except.error e, 1)
  simp [retryLoop, he, hr]

/-- Witness for the amended claim C4: a plain 404 (body without
5xx-looking text) fails after exactly one attempt, with no content. -/
theorem getFileContent_retry_classification_witness :
    getFileContent (fun _ => HttpOutcome.resp 404 "Not Found")
      = (Except.error (FetchErr.httpStatus 404 "Not Found"), 1) :=
  getFileContent_retry_classification.2.2
    (fun _ => HttpOutcome.resp 404 "Not Found")
    (FetchErr.httpStatus 404 "Not Found") rfl (by decide)

/-! ## Claim C5 -/

/-- Claim C5: a log-bearing record whose log file flattens to N data
rows assembles exactly N events; event i is the base record's object
with row i set under `LogFileContent`, identical to the base on every
other key; N = 0 yields zero events; and a non-log-bearing record
contributes exactly one payload, its collected JSON. -/
theorem log_rows_assemble_one_event_each {Ev' : Type} (content : String) (base : JObj)
    (rows : List (List (String × String)))
    (h : getEventLogFileContent content = some rows) :
    (∃ evs, EnrichEventLogFileSObjectData content base = some evs
      ∧ evs.length = rows.length
      ∧ ∀ i row, rows.get? i = some row →
          evs.get? i = some (addEventLogToJsonData row base)
          ∧ (∀ k, k ≠ "LogFileContent" →
              lookupKey (addEventLogToJsonData row base) k = lookupKey base k)
          ∧ lookupKey (addEventLogToJsonData row base) "LogFileContent"
              = some (JValue.obj (row.map (fun kv => (kv.1, JValue.s kv.2)))))
    ∧ (∀ (cd : Nat) (d : Ev') (er : Except Unit (List Ev')),
        processRecord false (⟨cd, Except.ok d, er⟩ : RecInput Ev') = Except.ok [d]) := by
  constructor
  · refine ⟨rows.map (fun row => addEventLogToJsonData row base), ?_, by simp, ?_⟩
    · simp [EnrichEventLogFileSObjectData, h]
    · intro i row hrow
      refine ⟨?_, ?_, ?_⟩
      · rw [List.get?_map, hrow]; rfl
      · intro k hk
        exact lookupKey_setKey_ne base "LogFileContent" _ k hk
      · exact lookupKey_setKey_self base "LogFileContent" _
  · intro cd d er
    rfl

/-- Witness for claim C5 at a concrete input: content with two data
rows and a base record with one field. -/
theorem log_rows_assemble_one_event_each_witness :
    (∃ evs,
      EnrichEventLogFileSObjectData "a,b\n1,2\n\n3,4\n" [("Id", JValue.s "7")] = some evs
      ∧ evs.length = ([[("a", "1"), ("b", "2")], [("a", "3"), ("b", "4")]]).length
      ∧ ∀ i row, ([[("a", "1"), ("b", "2")], [("a", "3"), ("b", "4")]]
            : List (List (String × String))).get? i = some row →
          evs.get? i = some (addEventLogToJsonData row [("Id", JValue.s "7")])
          ∧ (∀ k, k ≠ "LogFileContent" →
              lookupKey (addEventLogToJsonData row [("Id", JValue.s "7")]) k
                = lookupKey [("Id", JValue.s "7")] k)
          ∧ lookupKey (addEventLogToJsonData row [("Id", JValue.s "7")]) "LogFileContent"
              = some (JValue.obj (row.map (fun kv => (kv.1, JValue.s kv.2)))))
    ∧ (∀ (cd : Nat) (d : Nat) (er : Except Unit (List Nat)),
        processRecord false (⟨cd, Except.ok d, er⟩ : RecInput Nat) = Except.ok [d]) :=
  log_rows_assemble_one_event_each "a,b\n1,2\n\n3,4\n" [("Id", JValue.s "7")]
    [[("a", "1"), ("b", "2")], [("a", "3"), ("b", "4")]] rfl

/-! ## Claim C9 -/

theorem validateSObjects_error_of_bad (now : String) (sos : List SObjectToCollect)
    (h : ∃ so ∈ sos, so.SObjectType = ""
        ∨ (so.LatestTimestamp ≠ "" ∧ parseCanonicalTimestamp so.LatestTimestamp = none)) :
    ∃ e, validateSObjects now sos = Except.error e := by
  induction sos with
  | nil => simp at h
  | cons so rest ih =>
      by_cases ht : so.SObjectType = ""
      · exact ⟨"sObject type must have a value", by simp [validateSObjects, ht]⟩
      · have down : (∃ x ∈ rest, x.SObjectType = ""
            ∨ (x.LatestTimestamp ≠ "" ∧ parseCanonicalTimestamp x.LatestTimestamp = none)) →
            ∃ e, validateSObjects now (so :: rest) = Except.error e := by
          intro h'
          obtain ⟨e, he⟩ := ih h'
          by_cases hts : so.LatestTimestamp = ""
          · exact ⟨e, by simp [validateSObjects, ht, hts, he]⟩
          · by_cases hp : (parseCanonicalTimestamp so.LatestTimestamp).isSome
            · exact ⟨e, by simp [validateSObjects, ht, hts, hp, he]⟩
            · exact ⟨"sObject latest timestamp must be in 2006-01-02T15:04:05.000Z format",
                by simp [validateSObjects, ht, hts, hp]⟩
        rcases h with ⟨x, hx, hbad⟩
        rcases List.mem_cons.mp hx with rfl | hx'
        · rcases hbad with hb | ⟨hts, hpn⟩
          · exact absurd hb ht
          · refine ⟨"sObject latest timestamp must be in 2006-01-02T15:04:05.000Z format", ?_⟩
            simp [validateSObjects, ht, hts, hpn]
        · exact down ⟨x, hx', hbad⟩

theorem validateSObjects_ok_defaults (now : String) (sos out : List SObjectToCollect)
    (h : validateSObjects now sos = Except.ok out) :
    out = sos.map (fun so =>
      if so.LatestTimestamp = "" then ⟨so.SObjectType, now⟩ else so) := by
  induction sos generalizing out with
  | nil =>
      simp [validateSObjects] at h
      subst h
      rfl
  | cons so rest ih =>
      by_cases ht : so.SObjectType = ""
      · simp [validateSObjects, ht] at h
      · cases hv : validateSObjects now rest with
        | error e =>
            by_cases hts : so.LatestTimestamp = ""
            · simp [validateSObjects, ht, hts, hv] at h
            · by_cases hp : (parseCanonicalTimestamp so.LatestTimestamp).isSome
              · simp [validateSObjects, ht, hts, hp, hv] at h
              · simp [validateSObjects, ht, hts, hp] at h
        | ok rest' =>
            have hrest := ih rest' hv
            by_cases hts : so.LatestTimestamp = ""
            · simp [validateSObjects, ht, hts, hv] at h
              simp [← h, hts, hrest]
            · by_cases hp : (parseCanonicalTimestamp so.LatestTimestamp).isSome
              · simp [validateSObjects, ht, hts, hp, hv] at h
                simp [← h, hts, hrest]
              · simp [validateSObjects, ht, hts, hp] at h

/-- Claim C9: receiver construction fails with a configuration error
for an empty client ID, username, password or security token, an empty
sObject list, an empty sObject type name, or a non-empty starting
timestamp that does not parse in the canonical
`2006-01-02T15:04:05.000Z` layout; and in a successfully constructed
receiver every sObject whose starting timestamp was empty has it
defaulted to the formatted `now minus one hour`, all others kept
verbatim. -/
theorem receiver_construction_validation
    (clientID username password securityToken : String)
    (sObjects : List SObjectToCollect) (customFields : List (String × String))
    (now : String) :
    ((clientID = "" ∨ username = "" ∨ password = "" ∨ securityToken = ""
        ∨ sObjects = []
        ∨ (∃ so ∈ sObjects, so.SObjectType = "")
        ∨ (∃ so ∈ sObjects, so.LatestTimestamp ≠ ""
            ∧ parseCanonicalTimestamp so.LatestTimestamp = none)) →
      ∃ e, NewSalesforceLogsReceiver clientID username password securityToken
        sObjects customFields now = Except.error e)
    ∧ (∀ rec, NewSalesforceLogsReceiver clientID username password securityToken
        sObjects customFields now = Except.ok rec →
      rec.SObjects = sObjects.map (fun so =>
        if so.LatestTimestamp = "" then ⟨so.SObjectType, now⟩ else so)) := by
  constructor
  · intro h
    by_cases hc : clientID = ""
    · exact ⟨"client ID must have a value", by simp [NewSalesforceLogsReceiver, hc]⟩
    by_cases hu : username = ""
    · exact ⟨"username must have a value", by simp [NewSalesforceLogsReceiver, hc, hu]⟩
    by_cases hpw : password = ""
    · exact ⟨"password must have a value", by simp [NewSalesforceLogsReceiver, hc, hu, hpw]⟩
    by_cases hst : securityToken = ""
    · exact ⟨"security token must have a value",
        by simp [NewSalesforceLogsReceiver, hc, hu, hpw, hst]⟩
    by_cases hso : sObjects = []
    · exact ⟨"sObjects must have a value",
        by simp [NewSalesforceLogsReceiver, hc, hu, hpw, hst, hso]⟩
    have hlen : ¬ sObjects.length = 0 := by
      simpa [List.length_eq_zero] using hso
    have hbad : ∃ so ∈ sObjects, so.SObjectType = ""
        ∨ (so.LatestTimestamp ≠ "" ∧ parseCanonicalTimestamp so.LatestTimestamp = none) := by
      rcases h with h | h | h | h | h | h | h
      · exact absurd h hc
      · exact absurd h hu
      · exact absurd h hpw
      · exact absurd h hst
      · exact absurd h hso
      · obtain ⟨so, hmem, hb⟩ := h
        exact ⟨so, hmem, Or.inl hb⟩
      · obtain ⟨so, hmem, hb⟩ := h
        exact ⟨so, hmem, Or.inr hb⟩
    obtain ⟨e, he⟩ := validateSObjects_error_of_bad now sObjects hbad
    exact ⟨e, by simp [NewSalesforceLogsReceiver, hc, hu, hpw, hst, hlen, he]⟩
  · intro rec h
    by_cases hc : clientID = ""
    · simp [NewSalesforceLogsReceiver, hc] at h
    by_cases hu : username = ""
    · simp [NewSalesforceLogsReceiver, hc, hu] at h
    by_cases hpw : password = ""
    · simp [NewSalesforceLogsReceiver, hc, hu, hpw] at h
    by_cases hst : securityToken = ""
    · simp [NewSalesforceLogsReceiver, hc, hu, hpw, hst] at h
    by_cases hlen : sObjects.length = 0
    · simp [NewSalesforceLogsReceiver, hc, hu, hpw, hst, hlen] at h
    cases hv : validateSObjects now sObjects with
    | error e =>
        simp [NewSalesforceLogsReceiver, hc, hu, hpw, hst, hlen, hv] at h
    | ok sos =>
        simp [NewSalesforceLogsReceiver, hc, hu, hpw, hst, hlen, hv] at h
        rw [← h]
        exact validateSObjects_ok_defaults now sObjects sos hv

/-- Witness for claim C9 at concrete inputs: an empty client ID is a
construction error, and a valid configuration whose single sObject has
an empty starting timestamp gets it defaulted to the supplied
`now minus one hour` string. -/
theorem receiver_construction_validation_witness :
    (∃ e, NewSalesforceLogsReceiver "" "u" "p" "t"
        [⟨"Account", ""⟩] [] "NOW" = Except.error e)
    ∧ ((⟨[⟨"Account", "NOW"⟩], "u", "p", "t", []⟩ : SalesforceLogsReceiver).SObjects
        = [(⟨"Account", ""⟩ : SObjectToCollect)].map (fun so =>
            if so.LatestTimestamp = "" then ⟨so.SObjectType, "NOW"⟩ else so)) :=
  ⟨(receiver_construction_validation "" "u" "p" "t" [⟨"Account", ""⟩] [] "NOW").1
      (Or.inl rfl),
   (receiver_construction_validation "c" "u" "p" "t" [⟨"Account", ""⟩] [] "NOW").2
      ⟨[⟨"Account", "NOW"⟩], "u", "p", "t", []⟩ rfl⟩

end SalesforceLogs
